import Mathlib

/-!
Verification of the Bearound React Native SDK bridge layer.

Shallow embedding of the two core components of the repository:

* the event payload normalizer of `src/index.tsx` (`asMap`, `asNumber`,
  `parseProximity`, `parseMetadata`, `parseBeacons`,
  `parseSyncLifecycleEvent`) together with the `configure` validation, and
* the permission orchestrator of `src/permissions.ts` (`has`,
  `checkPermissions`, `requestForegroundPermissions`,
  `requestBackgroundLocation`, `ensurePermissions`).

JavaScript dynamic values arriving from the native bridge are modelled by
the inductive type `JSVal`; JavaScript numbers are modelled by `JSNum`
(a finite rational, NaN, or a signed infinity - the parsers only test
finiteness and pass values through, no float arithmetic is performed).
The JavaScript builtins `Number(string)` and number-to-string conversion
are external to the repository and are taken as parameters (`JSPrim`).

The permission functions perform asynchronous OS calls which may reject.
They are embedded in the monad `M`, which pairs an `Except`-result with
the ordered trace of OS calls performed (`OsCall`): sequential `await`s
become monadic binds, a rejected promise becomes `Except.error`, and a
rejection aborts the remaining binds while keeping the trace performed so
far, exactly matching the untried/uncaught promise semantics of the
source (the module contains no try/catch).
-/

namespace Bearound

/-- JavaScript number: a finite value (modelled as a rational), NaN, or a
signed infinity. -/
inductive JSNum where
  | finite (q : ℚ)
  | nan
  | posInf
  | negInf
deriving DecidableEq, Repr

/-- The `Number.isFinite`. -/
def JSNum.isFinite : JSNum → Bool
  | .finite _ => true
  | _ => false

/-- A dynamic JavaScript value as delivered over the native bridge.
Objects are finite association lists (JavaScript objects cannot hold a
duplicated key; lookup takes the first binding). -/
inductive JSVal where
  | undef
  | null
  | bool (b : Bool)
  | num (n : JSNum)
  | str (s : String)
  | arr (items : List JSVal)
  | obj (fields : List (String × JSVal))

/-- The JavaScript builtins used by the normalizer that are external to
the repository: `Number(string)` parsing, number formatting, and the
ToPrimitive stringification of arrays and objects. -/
structure JSPrim where
  strToNum : String → JSNum
  numToStr : JSNum → String
  objToStr : JSVal → String

/-- Property access `o.k` on a JavaScript object: a missing key reads as
`undefined`. -/
def getProp (fields : List (String × JSVal)) (k : String) : JSVal :=
  match fields.lookup k with
  | some v => v
  | none => JSVal.undef

/-- Nullish coalescing `v ?? w`. -/
def nullish (v w : JSVal) : JSVal :=
  match v with
  | .undef => w
  | .null => w
  | _ => v

/-- JavaScript ToBoolean (truthiness). -/
def toBool : JSVal → Bool
  | .undef => false
  | .null => false
  | .bool b => b
  | .num n =>
      match n with
      | .finite q => decide (q ≠ 0)
      | .nan => false
      | _ => true
  | .str s => decide (s ≠ "")
  | .arr _ => true
  | .obj _ => true

/-- JavaScript `String(v)` conversion: fixed on the primitive values,
delegated to the host model (`JSPrim.objToStr`) on arrays and objects
where the language performs a ToPrimitive conversion. -/
def jsToString (prim : JSPrim) : JSVal → String
  | .undef => "undefined"
  | .null => "null"
  | .bool b => if b then "true" else "false"
  | .num n => prim.numToStr n
  | .str s => s
  | .arr items => prim.objToStr (.arr items)
  | .obj fields => prim.objToStr (.obj fields)

/-- The `asMap` from `src/index.tsx`: coerce an unknown event payload to a
record; anything that is not a plain object (falsy values, primitives,
arrays) becomes the empty record. -/
def asMap : JSVal → List (String × JSVal)
  | .obj fields => fields
  | _ => []

/-- The `asNumber` from `src/index.tsx`: finite native numbers pass through;
strings are parsed by `Number` and must parse finite; everything else is
the fallback. -/
def asNumber (prim : JSPrim) (value : JSVal) (fallback : JSNum) : JSNum :=
  match value with
  | .num n => if n.isFinite then n else fallback
  | .str s =>
      let parsed := prim.strToNum s
      if parsed.isFinite then parsed else fallback
  | _ => fallback

/-- The proximity buckets of the public schema. -/
inductive BeaconProximity where
  | immediate
  | near
  | far
  | bt
  | unknown
deriving DecidableEq, Repr

/-- ASCII lowercasing of a string (JavaScript `toLowerCase` restricted
to the ASCII range, which covers the proximity bucket names). -/
def strToLower (s : String) : String := ⟨s.data.map Char.toLower⟩

/-- The set of characters stripped by JavaScript `String.prototype.trim`:
the ECMAScript WhiteSpace production (tab, vertical tab, form feed,
space, no-break space, the byte order mark, and the Unicode space
separators) together with the LineTerminator production (line feed,
carriage return, line separator, paragraph separator). -/
def jsIsWhitespace (c : Char) : Bool :=
  c.toNat == 0x09 || c.toNat == 0x0A || c.toNat == 0x0B || c.toNat == 0x0C ||
  c.toNat == 0x0D || c.toNat == 0x20 || c.toNat == 0xA0 || c.toNat == 0x1680 ||
  (decide (0x2000 ≤ c.toNat) && decide (c.toNat ≤ 0x200A)) ||
  c.toNat == 0x2028 || c.toNat == 0x2029 || c.toNat == 0x202F ||
  c.toNat == 0x205F || c.toNat == 0x3000 || c.toNat == 0xFEFF

/-- JavaScript `String.prototype.trim`: drop the JavaScript whitespace
characters from both ends. -/
def jsTrim (s : String) : String :=
  ⟨((s.data.dropWhile jsIsWhitespace).reverse.dropWhile jsIsWhitespace).reverse⟩

/-- The `parseProximity` from `src/index.tsx`: case-insensitive match of
`String(value OR-empty)` against the known bucket names; anything else is
`unknown`. -/
def parseProximity (prim : JSPrim) (value : JSVal) : BeaconProximity :=
  let s := strToLower (jsToString prim (if toBool value then value else .str ""))
  if s = "immediate" then .immediate
  else if s = "near" then .near
  else if s = "far" then .far
  else if s = "bt" then .bt
  else .unknown

/-- The `BeaconMetadata` of the public schema. -/
structure BeaconMetadata where
  firmwareVersion : String
  batteryLevel : JSNum
  movements : JSNum
  temperature : JSNum
  txPower : Option JSNum
  rssiFromBLE : Option JSNum
  isConnectable : Option Bool
deriving DecidableEq, Repr

/-- The `parseMetadata` from `src/index.tsx`: `undefined` (absent) for
anything that is not a plain object; otherwise numeric fields go through
`asNumber` and the optional fields stay absent exactly when the accessed
property reads as `undefined`. -/
def parseMetadata (prim : JSPrim) (value : JSVal) : Option BeaconMetadata :=
  match value with
  | .obj fields =>
      some
        { firmwareVersion := jsToString prim (nullish (getProp fields "firmwareVersion") (.str ""))
          batteryLevel := asNumber prim (getProp fields "batteryLevel") (.finite 0)
          movements := asNumber prim (getProp fields "movements") (.finite 0)
          temperature := asNumber prim (getProp fields "temperature") (.finite 0)
          txPower :=
            match getProp fields "txPower" with
            | .undef => none
            | v => some (asNumber prim v (.finite 0))
          rssiFromBLE :=
            match getProp fields "rssiFromBLE" with
            | .undef => none
            | v => some (asNumber prim v (.finite 0))
          isConnectable :=
            match getProp fields "isConnectable" with
            | .undef => none
            | v => some (toBool v) }
  | _ => none

/-- The `Beacon` of the public schema. -/
structure Beacon where
  uuid : String
  major : JSNum
  minor : JSNum
  rssi : JSNum
  proximity : BeaconProximity
  accuracy : JSNum
  timestamp : JSNum
  metadata : Option BeaconMetadata
  txPower : Option JSNum
deriving DecidableEq, Repr

/-- The per-element arrow function inside `parseBeacons`: a best-effort
beacon, with every missing or malformed field replaced by its default. -/
def parseBeaconItem (prim : JSPrim) (item : JSVal) : Beacon :=
  let beacon := asMap item
  { uuid := jsToString prim (nullish (getProp beacon "uuid") (.str ""))
    major := asNumber prim (getProp beacon "major") (.finite 0)
    minor := asNumber prim (getProp beacon "minor") (.finite 0)
    rssi := asNumber prim (getProp beacon "rssi") (.finite 0)
    proximity := parseProximity prim (getProp beacon "proximity")
    accuracy := asNumber prim (getProp beacon "accuracy") (.finite 0)
    timestamp := asNumber prim (getProp beacon "timestamp") (.finite 0)
    metadata := parseMetadata prim (getProp beacon "metadata")
    txPower :=
      match getProp beacon "txPower" with
      | .undef => none
      | v => some (asNumber prim v (.finite 0)) }

/-- The `parseBeacons` from `src/index.tsx`: a bare array, or the `beacons`
field of a record, is mapped element-wise; any other shape yields the
empty list. -/
def parseBeacons (prim : JSPrim) (event : JSVal) : List Beacon :=
  let payload := asMap event
  let raw : JSVal :=
    match event with
    | .arr items => .arr items
    | _ => getProp payload "beacons"
  match raw with
  | .arr items => items.map (parseBeaconItem prim)
  | _ => []

/-- The `SyncLifecycleEvent` of the public schema. The TypeScript declaration
restricts `type` to the strings `started` and `completed`, but the parser
produces it by an unchecked cast of `String(payload.type)`, so the field
is embedded as an arbitrary string. -/
structure SyncLifecycleEvent where
  type : String
  beaconCount : JSNum
  success : Option Bool
  error : Option String
deriving DecidableEq, Repr

/-- The `parseSyncLifecycleEvent` from `src/index.tsx`. -/
def parseSyncLifecycleEvent (prim : JSPrim) (event : JSVal) : SyncLifecycleEvent :=
  let payload := asMap event
  { type := jsToString prim (getProp payload "type")
    beaconCount := asNumber prim (getProp payload "beaconCount") (.finite 0)
    success :=
      match getProp payload "success" with
      | .undef => none
      | v => some (toBool v)
    error :=
      match getProp payload "error" with
      | .undef => none
      | v => some (jsToString prim v) }

/-- The `SdkConfig` of `src/index.tsx`; optional fields model the optional
TypeScript properties, `businessToken` is optional because callers can
(and the test suite does) pass a config with the token missing. -/
structure SdkConfig where
  businessToken : Option String
  foregroundScanInterval : Option Int
  backgroundScanInterval : Option Int
  maxQueuedPayloads : Option Int
  enableBluetoothScanning : Option Bool
  enablePeriodicScanning : Option Bool

/-- The single native `configure` invocation performed by a successful
`configure` call, recorded as data: an `Except.ok args` result means the
native method was invoked exactly once with `args`, an `Except.error`
result means the call rejected synchronously and the native bridge was
never reached. -/
structure ConfigureArgs where
  businessToken : String
  foregroundScanInterval : Int
  backgroundScanInterval : Int
  maxQueuedPayloads : Int
  enableBluetoothScanning : Bool
  enablePeriodicScanning : Bool
deriving DecidableEq, Repr

/-- The `configure` from `src/index.tsx`: destructure the config with its
defaults, validate the business token, and forward the trimmed token. -/
def configure (config : SdkConfig) : Except String ConfigureArgs :=
  let foregroundScanInterval := config.foregroundScanInterval.getD 15
  let backgroundScanInterval := config.backgroundScanInterval.getD 30
  let maxQueuedPayloads := config.maxQueuedPayloads.getD 100
  let enableBluetoothScanning := config.enableBluetoothScanning.getD false
  let enablePeriodicScanning := config.enablePeriodicScanning.getD true
  match config.businessToken with
  | none => Except.error "Business token is required"
  | some businessToken =>
      if businessToken = "" ∨ (jsTrim businessToken).length = 0 then
        Except.error "Business token is required"
      else
        Except.ok
          { businessToken := jsTrim businessToken
            foregroundScanInterval
            backgroundScanInterval
            maxQueuedPayloads
            enableBluetoothScanning
            enablePeriodicScanning }

/-! ## Permission orchestrator (`src/permissions.ts`) -/

/-- Result of permission checks/requests (`PermissionResult`). -/
structure PermissionResult where
  fineLocation : Bool
  btScan : Bool
  btConnect : Bool
  notifications : Bool
  backgroundLocation : Bool
deriving DecidableEq, Repr

/-- The Android runtime permissions the module touches. -/
inductive Perm where
  | fineLocation
  | coarseLocation
  | btScan
  | btConnect
  | postNotifications
  | backgroundLocation
deriving DecidableEq, Repr

/-- The values of `PermissionsAndroid.RESULTS` a request can resolve to. -/
inductive ReqRes where
  | granted
  | denied
  | neverAskAgain
deriving DecidableEq, Repr

/-- One OS interaction performed by the module: a silent permission
check, a user-facing permission request dialog, or the deep-link to the
app settings screen. -/
inductive OsCall where
  | check (p : Perm)
  | request (p : Perm)
  | openSettings
deriving DecidableEq, Repr

/-- The host platform and the behaviour of its permission primitives.
`check` and `request` return `Except.error` when the underlying promise
rejects. The oracle is a pure function: the OS permission state does not
change between calls of a single scenario. -/
structure OS where
  isAndroid : Bool
  version : Int
  check : Perm → Except String Bool
  request : Perm → Except String ReqRes
  openSettingsResult : Except String Unit

/-- The `SDK_INT`: `isAndroid ? Number(Platform.Version) : 0`. -/
def sdkInt (os : OS) : Int :=
  if os.isAndroid then os.version else 0

/-- The embedding monad for the asynchronous permission functions: a
computation yields an `Except` result together with the ordered trace of
OS calls it performed. A rejection aborts the rest of the computation
(the source has no try/catch) but keeps the trace performed so far. -/
abbrev M (α : Type) : Type := Except String α × List OsCall

/-- Sequential composition of two awaited steps. -/
def M.bind {α β : Type} (x : M α) (f : α → M β) : M β :=
  match x with
  | (Except.ok a, t) => ((f a).fst, t ++ (f a).snd)
  | (Except.error e, t) => (Except.error e, t)

instance : Monad M where
  pure a := (Except.ok a, [])
  bind := M.bind

/-- The `PermissionsAndroid.check`. -/
def osCheck (os : OS) (p : Perm) : M Bool :=
  (os.check p, [OsCall.check p])

/-- The `PermissionsAndroid.request`. -/
def osRequest (os : OS) (p : Perm) : M ReqRes :=
  (os.request p, [OsCall.request p])

/-- The `Linking.openSettings`. -/
def osOpenSettings (os : OS) : M Unit :=
  (os.openSettingsResult, [OsCall.openSettings])

/-- The `has` from `src/permissions.ts`: granted, or `true` for an undefined
permission constant. The sequencing is written with explicit binds, each
`x >>= fun v => k` embedding one `await`. -/
def has (os : OS) (p : Option Perm) : M Bool :=
  match p with
  | some q => osCheck os q >>= fun b => pure (b == true)
  | none => pure true

/-- The `checkPermissions` from `src/permissions.ts`. -/
def checkPermissions (os : OS) : M PermissionResult :=
  if !os.isAndroid then
    pure { fineLocation := true, btScan := true, btConnect := true
           notifications := true, backgroundLocation := true }
  else
    has os (some Perm.fineLocation) >>= fun hasFine =>
    has os (some Perm.coarseLocation) >>= fun hasCoarse =>
    let fineOrCoarse := hasFine || hasCoarse
    (if 31 ≤ sdkInt os then has os (some Perm.btScan) else pure true) >>= fun btScan =>
    (if 31 ≤ sdkInt os then has os (some Perm.btConnect) else pure true) >>= fun btConnect =>
    (if 33 ≤ sdkInt os then has os (some Perm.postNotifications) else pure true) >>= fun notifications =>
    (if 29 ≤ sdkInt os then has os (some Perm.backgroundLocation) else pure true) >>= fun backgroundLocation =>
    pure { fineLocation := fineOrCoarse, btScan, btConnect, notifications, backgroundLocation }

/-- The `req` helper inside `requestForegroundPermissions`: show the
dialog for `p` and report whether the result is `GRANTED`. -/
def req (os : OS) (p : Perm) : M Bool :=
  osRequest os p >>= fun res => pure (decide (res = ReqRes.granted))

/-- The `requestForegroundPermissions` from `src/permissions.ts`. -/
def requestForegroundPermissions (os : OS) : M PermissionResult :=
  if !os.isAndroid then checkPermissions os
  else
    req os Perm.fineLocation >>= fun fineGranted =>
    (if !fineGranted then req os Perm.coarseLocation else pure false) >>= fun coarseGranted =>
    (if 31 ≤ sdkInt os then req os Perm.btScan else pure true) >>= fun btScan =>
    (if 31 ≤ sdkInt os then req os Perm.btConnect else pure true) >>= fun btConnect =>
    (if 33 ≤ sdkInt os then req os Perm.postNotifications else pure true) >>= fun notifications =>
    checkPermissions os >>= fun current =>
    pure { current with
           fineLocation := current.fineLocation || fineGranted || coarseGranted
           btScan := current.btScan || btScan
           btConnect := current.btConnect || btConnect
           notifications := current.notifications || notifications }

/-- The `requestBackgroundLocation` from `src/permissions.ts`. -/
def requestBackgroundLocation (os : OS) : M Bool :=
  if !os.isAndroid || sdkInt os < 29 then pure true
  else
    checkPermissions os >>= fun fg =>
    if !fg.fineLocation && decide (sdkInt os < 31) then
      pure false
    else
      osRequest os Perm.backgroundLocation >>= fun res =>
      (if res = ReqRes.neverAskAgain then osOpenSettings os else pure ()) >>= fun _ =>
      pure (decide (res = ReqRes.granted))

/-- The `ensurePermissions` from `src/permissions.ts`. -/
def ensurePermissions (os : OS) (askBackground : Bool) : M PermissionResult :=
  requestForegroundPermissions os >>= fun _ =>
  (if askBackground then requestBackgroundLocation os >>= fun _ => pure () else pure ()) >>= fun _ =>
  checkPermissions os

/-! ## Helper lemmas about the embedding monad -/

theorem M.bind_eq {α β : Type} (x : M α) (f : α → M β) : x >>= f = M.bind x f := rfl

theorem M.pure_eq {α : Type} (a : α) : (pure a : M α) = (Except.ok a, []) := rfl

theorem M.pure_fst_ok {α : Type} {a b : α} (h : (pure a : M α).fst = Except.ok b) : a = b := by
  simpa [M.pure_eq] using h

theorem M.bind_of_ok {α β : Type} {x : M α} {a : α} {f : α → M β}
    (h : x.fst = Except.ok a) : M.bind x f = ((f a).fst, x.snd ++ (f a).snd) := by
  obtain ⟨xf, xt⟩ := x
  cases xf with
  | ok a0 =>
      cases h
      rfl
  | error e => cases h

theorem M.bind_of_err {α β : Type} {x : M α} {e : String} {f : α → M β}
    (h : x.fst = Except.error e) : M.bind x f = (Except.error e, x.snd) := by
  obtain ⟨xf, xt⟩ := x
  cases xf with
  | ok a0 => cases h
  | error e0 =>
      cases h
      rfl

theorem M.bind_fst_ok {α β : Type} {x : M α} {f : α → M β} {b : β}
    (h : (M.bind x f).fst = Except.ok b) : ∃ a, x.fst = Except.ok a ∧ (f a).fst = Except.ok b := by
  obtain ⟨xf, xt⟩ := x
  cases xf with
  | ok a0 => exact ⟨a0, rfl, h⟩
  | error e => exact absurd h (by simp [M.bind])

theorem M.mem_bind_snd {α β : Type} {x : M α} {f : α → M β} {e : OsCall}
    (h : e ∈ (M.bind x f).snd) :
    e ∈ x.snd ∨ ∃ a, x.fst = Except.ok a ∧ e ∈ (f a).snd := by
  obtain ⟨xf, xt⟩ := x
  cases xf with
  | ok a0 =>
      simp only [M.bind, List.mem_append] at h
      rcases h with h | h
      · exact Or.inl h
      · exact Or.inr ⟨a0, rfl, h⟩
  | error e0 => exact Or.inl h

/-! ## Helper lemmas about the OS primitives -/

theorem has_fst (os : OS) (p : Perm) : (has os (some p)).fst = os.check p := by
  cases h : os.check p with
  | ok b =>
      cases b <;> simp [has, M.bind_eq, M.bind, osCheck, h, M.pure_eq]
  | error e => simp [has, M.bind_eq, M.bind, osCheck, h, M.pure_eq]

theorem has_snd (os : OS) (p : Perm) : (has os (some p)).snd = [OsCall.check p] := by
  cases h : os.check p with
  | ok b => simp [has, M.bind_eq, M.bind, osCheck, h, M.pure_eq]
  | error e => simp [has, M.bind_eq, M.bind, osCheck, h, M.pure_eq]

/-- Whether the OS resolves the request dialog for `p` with `GRANTED`. -/
def grantedB (os : OS) (p : Perm) : Bool :=
  match os.request p with
  | Except.ok r => decide (r = ReqRes.granted)
  | Except.error _ => false

theorem req_fst_ok {os : OS} {p : Perm} {a : Bool}
    (h : (req os p).fst = Except.ok a) : a = grantedB os p := by
  cases hr : os.request p with
  | ok r =>
      simp [req, M.bind_eq, M.bind, osRequest, hr, M.pure_eq] at h
      simp [grantedB, hr, h]
  | error e => simp [req, M.bind_eq, M.bind, osRequest, hr, M.pure_eq] at h

theorem req_snd (os : OS) (p : Perm) : (req os p).snd = [OsCall.request p] := by
  cases hr : os.request p with
  | ok r => simp [req, M.bind_eq, M.bind, osRequest, hr, M.pure_eq]
  | error e => simp [req, M.bind_eq, M.bind, osRequest, hr, M.pure_eq]

theorem req_fst (os : OS) (p : Perm) :
    (req os p).fst = Except.map (fun r => decide (r = ReqRes.granted)) (os.request p) := by
  cases hr : os.request p with
  | ok r => simp [req, M.bind_eq, M.bind, osRequest, hr, Except.map, M.pure_eq]
  | error e => simp [req, M.bind_eq, M.bind, osRequest, hr, Except.map, M.pure_eq]

/-- Every OS call performed by `checkPermissions` is a silent permission
check: it never opens a dialog and never deep-links to settings. -/
theorem checkPermissions_snd_checks (os : OS) {e : OsCall}
    (he : e ∈ (checkPermissions os).snd) : ∃ p, e = OsCall.check p := by
  cases hA : os.isAndroid with
  | false =>
      rw [checkPermissions, hA] at he
      simp [M.pure_eq] at he
  | true =>
      rw [checkPermissions, hA] at he
      simp only [Bool.not_true, Bool.false_eq_true, if_false, M.bind_eq] at he
      rcases M.mem_bind_snd he with he | ⟨a1, _, he⟩
      · exact ⟨_, by simpa [has_snd] using he⟩
      rcases M.mem_bind_snd he with he | ⟨a2, _, he⟩
      · exact ⟨_, by simpa [has_snd] using he⟩
      rcases M.mem_bind_snd he with he | ⟨a3, _, he⟩
      · by_cases h31 : 31 ≤ sdkInt os <;> simp [h31, has_snd, M.pure_eq] at he
        exact ⟨_, he⟩
      rcases M.mem_bind_snd he with he | ⟨a4, _, he⟩
      · by_cases h31 : 31 ≤ sdkInt os <;> simp [h31, has_snd, M.pure_eq] at he
        exact ⟨_, he⟩
      rcases M.mem_bind_snd he with he | ⟨a5, _, he⟩
      · by_cases h33 : 33 ≤ sdkInt os <;> simp [h33, has_snd, M.pure_eq] at he
        exact ⟨_, he⟩
      rcases M.mem_bind_snd he with he | ⟨a6, _, he⟩
      · by_cases h29 : 29 ≤ sdkInt os <;> simp [h29, has_snd, M.pure_eq] at he
        exact ⟨_, he⟩
      simp [M.pure_eq] at he

/-- Recognizer for the user-facing dialog calls in a trace. -/
def isRequestCall : OsCall → Bool
  | .request _ => true
  | _ => false

/-- Stated from the words of the spec (the refinement side of the ordering
claim): the five prompts of a foreground request, in the fixed order
precise location, approximate location (only if precise was denied),
Bluetooth scan, Bluetooth connect, notifications, each skipped below the
OS version that introduced the corresponding runtime permission. -/
def specPromptOrder (os : OS) : List OsCall :=
  [OsCall.request Perm.fineLocation]
    ++ (if grantedB os Perm.fineLocation then [] else [OsCall.request Perm.coarseLocation])
    ++ (if 31 ≤ sdkInt os then [OsCall.request Perm.btScan] else [])
    ++ (if 31 ≤ sdkInt os then [OsCall.request Perm.btConnect] else [])
    ++ (if 33 ≤ sdkInt os then [OsCall.request Perm.postNotifications] else [])

theorem checkPermissions_snd_no_request (os : OS) :
    (checkPermissions os).snd.filter isRequestCall = [] := by
  rw [List.filter_eq_nil_iff]
  intro e he
  obtain ⟨p, rfl⟩ := checkPermissions_snd_checks os he
  simp [isRequestCall]

/-- Characterization of a successful Android `requestForegroundPermissions`
run: the returned record is the OR-merge of the freshly checked status
with the request outcomes, and the trace is the prompt sequence followed
by the trace of the final `checkPermissions`. -/
theorem rfp_char (os : OS) (r : PermissionResult) (hA : os.isAndroid = true)
    (hr : (requestForegroundPermissions os).fst = Except.ok r) :
    ∃ c, (checkPermissions os).fst = Except.ok c ∧
      r = { fineLocation := c.fineLocation || grantedB os Perm.fineLocation
              || (!grantedB os Perm.fineLocation && grantedB os Perm.coarseLocation)
            btScan := c.btScan || (if 31 ≤ sdkInt os then grantedB os Perm.btScan else true)
            btConnect := c.btConnect || (if 31 ≤ sdkInt os then grantedB os Perm.btConnect else true)
            notifications := c.notifications || (if 33 ≤ sdkInt os then grantedB os Perm.postNotifications else true)
            backgroundLocation := c.backgroundLocation } ∧
      (requestForegroundPermissions os).snd = specPromptOrder os ++ (checkPermissions os).snd := by
  have hcond : ¬ ((!os.isAndroid) = true) := by simp [hA]
  rw [requestForegroundPermissions, if_neg hcond] at hr
  simp only [M.bind_eq] at hr
  obtain ⟨a1, h1, hr⟩ := M.bind_fst_ok hr
  obtain ⟨a2, h2, hr⟩ := M.bind_fst_ok hr
  obtain ⟨a3, h3, hr⟩ := M.bind_fst_ok hr
  obtain ⟨a4, h4, hr⟩ := M.bind_fst_ok hr
  obtain ⟨a5, h5, hr⟩ := M.bind_fst_ok hr
  obtain ⟨c, hc, hr⟩ := M.bind_fst_ok hr
  have hmerge := M.pure_fst_ok hr
  have e1 : a1 = grantedB os Perm.fineLocation := req_fst_ok h1
  subst e1
  have e2 : a2 = (!grantedB os Perm.fineLocation && grantedB os Perm.coarseLocation) := by
    cases hgf : grantedB os Perm.fineLocation with
    | false =>
        rw [hgf] at h2
        simp only [Bool.not_false, if_true] at h2
        simpa [hgf] using req_fst_ok h2
    | true =>
        rw [hgf] at h2
        simp only [Bool.not_true, Bool.false_eq_true, if_false] at h2
        simp [hgf, (M.pure_fst_ok h2).symm]
  have e3 : a3 = (if 31 ≤ sdkInt os then grantedB os Perm.btScan else true) := by
    by_cases h31 : 31 ≤ sdkInt os
    · rw [if_pos h31] at h3 ⊢
      exact req_fst_ok h3
    · rw [if_neg h31] at h3 ⊢
      exact (M.pure_fst_ok h3).symm
  have e4 : a4 = (if 31 ≤ sdkInt os then grantedB os Perm.btConnect else true) := by
    by_cases h31 : 31 ≤ sdkInt os
    · rw [if_pos h31] at h4 ⊢
      exact req_fst_ok h4
    · rw [if_neg h31] at h4 ⊢
      exact (M.pure_fst_ok h4).symm
  have e5 : a5 = (if 33 ≤ sdkInt os then grantedB os Perm.postNotifications else true) := by
    by_cases h33 : 33 ≤ sdkInt os
    · rw [if_pos h33] at h5 ⊢
      exact req_fst_ok h5
    · rw [if_neg h33] at h5 ⊢
      exact (M.pure_fst_ok h5).symm
  subst e2
  subst e3
  subst e4
  subst e5
  refine ⟨c, hc, hmerge.symm, ?_⟩
  rw [requestForegroundPermissions, if_neg hcond]
  simp only [M.bind_eq]
  simp only [M.bind_of_ok h1, M.bind_of_ok h2, M.bind_of_ok h3, M.bind_of_ok h4,
    M.bind_of_ok h5, M.bind_of_ok hc]
  by_cases h31 : 31 ≤ sdkInt os <;> by_cases h33 : 33 ≤ sdkInt os <;>
    cases hgf : grantedB os Perm.fineLocation <;>
      simp [specPromptOrder, req_snd, h31, h33, hgf, M.pure_eq, List.append_assoc]

/-! ## Concrete instantiations used by witnesses and counterexamples -/

/-- A trivial instantiation of the external JavaScript number builtins:
every string parses to NaN. -/
def prim0 : JSPrim :=
  { strToNum := fun _ => JSNum.nan
    numToStr := fun _ => ""
    objToStr := fun _ => "" }

/-- An instantiation of the external JavaScript number builtins that
parses the string `42` to the number `42`. -/
def primW : JSPrim :=
  { strToNum := fun s => if s = "42" then JSNum.finite 42 else JSNum.nan
    numToStr := fun _ => ""
    objToStr := fun _ => "" }

theorem string_length_eq_zero {s : String} : s.length = 0 ↔ s = "" := by
  cases s with
  | mk data => simp [String.length, String.ext_iff, List.length_eq_zero]

/-! ## Claims about the event normalizer -/

/-- C5: `parseBeacons` is a total function returning a list for every
input shape: a bare array, or an object whose `beacons` field is an
array, is mapped element-wise through the defensive per-element parser
(no element is dropped); every other input shape yields the empty list;
and a non-object element still yields a best-effort beacon with every
field defaulted. -/
theorem parseBeacons_shape (prim : JSPrim) (event : JSVal) :
    (∀ items, event = JSVal.arr items →
      parseBeacons prim event = items.map (parseBeaconItem prim)) ∧
    (∀ fields items, event = JSVal.obj fields →
      getProp fields "beacons" = JSVal.arr items →
      parseBeacons prim event = items.map (parseBeaconItem prim)) ∧
    ((∀ items, event ≠ JSVal.arr items) →
      (∀ fields items, event = JSVal.obj fields → getProp fields "beacons" ≠ JSVal.arr items) →
      parseBeacons prim event = []) ∧
    (∀ item, (∀ fields, item ≠ JSVal.obj fields) →
      parseBeaconItem prim item =
        { uuid := "", major := JSNum.finite 0, minor := JSNum.finite 0, rssi := JSNum.finite 0
          proximity := BeaconProximity.unknown, accuracy := JSNum.finite 0
          timestamp := JSNum.finite 0, metadata := none, txPower := none }) := by
  refine ⟨?_, ?_, ?_, ?_⟩
  · rintro items rfl
    rfl
  · rintro fields items rfl hb
    simp [parseBeacons, asMap, hb]
  · intro hna hnb
    cases event with
    | arr items => exact absurd rfl (hna items)
    | obj fields =>
        rcases hg : getProp fields "beacons" with _ | _ | b | n | s | items | fs <;>
          first
            | exact absurd hg (hnb fields items rfl)
            | simp [parseBeacons, asMap, hg]
    | undef => rfl
    | null => rfl
    | bool b => rfl
    | num n => rfl
    | str s => rfl
  · intro item hno
    cases item <;> first | exact absurd rfl (hno _) | rfl

theorem parseBeacons_shape_witness :
    ((JSVal.obj [("beacons", JSVal.arr [JSVal.null])]) = JSVal.obj [("beacons", JSVal.arr [JSVal.null])]) ∧
    parseBeacons prim0 (JSVal.obj [("beacons", JSVal.arr [JSVal.null])]) =
      [{ uuid := "", major := JSNum.finite 0, minor := JSNum.finite 0, rssi := JSNum.finite 0
         proximity := BeaconProximity.unknown, accuracy := JSNum.finite 0
         timestamp := JSNum.finite 0, metadata := none, txPower := none }] :=
  ⟨rfl, (parseBeacons_shape prim0 _).2.1 [("beacons", JSVal.arr [JSVal.null])] [JSVal.null] rfl rfl⟩

/-- C6: the numeric coercion rule: finite native numbers pass through,
strings whose `Number` parse is finite yield the parsed value, and every
other input (NaN, the infinities, non-numeric strings, null, undefined,
booleans, arrays, objects) yields exactly the supplied fallback. -/
theorem asNumber_rule (prim : JSPrim) (fallback : JSNum) :
    (∀ q, asNumber prim (JSVal.num (JSNum.finite q)) fallback = JSNum.finite q) ∧
    (∀ s q, prim.strToNum s = JSNum.finite q →
      asNumber prim (JSVal.str s) fallback = JSNum.finite q) ∧
    asNumber prim (JSVal.num JSNum.nan) fallback = fallback ∧
    asNumber prim (JSVal.num JSNum.posInf) fallback = fallback ∧
    asNumber prim (JSVal.num JSNum.negInf) fallback = fallback ∧
    (∀ s, (prim.strToNum s).isFinite = false → asNumber prim (JSVal.str s) fallback = fallback) ∧
    asNumber prim JSVal.null fallback = fallback ∧
    asNumber prim JSVal.undef fallback = fallback ∧
    (∀ b, asNumber prim (JSVal.bool b) fallback = fallback) ∧
    (∀ items, asNumber prim (JSVal.arr items) fallback = fallback) ∧
    (∀ fields, asNumber prim (JSVal.obj fields) fallback = fallback) := by
  refine ⟨fun q => rfl, fun s q h => ?_, rfl, rfl, rfl, fun s h => ?_, rfl, rfl,
    fun b => rfl, fun items => rfl, fun fields => rfl⟩
  · simp [asNumber, h, JSNum.isFinite]
  · simp [asNumber, h]

theorem asNumber_rule_witness :
    primW.strToNum "42" = JSNum.finite 42 ∧
    asNumber primW (JSVal.str "42") (JSNum.finite 0) = JSNum.finite 42 ∧
    (primW.strToNum "abc").isFinite = false ∧
    asNumber primW (JSVal.str "abc") (JSNum.finite 0) = JSNum.finite 0 :=
  ⟨rfl, (asNumber_rule primW (JSNum.finite 0)).2.1 "42" 42 rfl, rfl,
    (asNumber_rule primW (JSNum.finite 0)).2.2.2.2.2.1 "abc" rfl⟩

/-- C7 counterexample: an object carrying the key `txPower` with the
explicit value `undefined` has the key present, yet the parsed metadata
leaves `txPower` absent - refuting "present exactly when the source key
exists". -/
theorem parseMetadata_key_undef_cex :
    ([("txPower", JSVal.undef)].lookup "txPower" = some JSVal.undef) ∧
    (parseMetadata prim0 (JSVal.obj [("txPower", JSVal.undef)])).map BeaconMetadata.txPower
      = some none :=
  ⟨rfl, rfl⟩

/-- C7 (amended): `parseMetadata` is absent exactly for non-object
inputs; on objects the numeric fields follow the shared coercion rule
(defaulting to 0 when the property reads as undefined) and each optional
field is absent exactly when the corresponding property reads as
`undefined` (key missing or explicitly undefined), present - even when
falsy or zero - otherwise. -/
theorem parseMetadata_shape (prim : JSPrim) (value : JSVal) :
    ((∀ fields, value ≠ JSVal.obj fields) → parseMetadata prim value = none) ∧
    (∀ fields, value = JSVal.obj fields →
      ∃ m, parseMetadata prim value = some m ∧
        m.batteryLevel = asNumber prim (getProp fields "batteryLevel") (JSNum.finite 0) ∧
        m.movements = asNumber prim (getProp fields "movements") (JSNum.finite 0) ∧
        m.temperature = asNumber prim (getProp fields "temperature") (JSNum.finite 0) ∧
        (getProp fields "batteryLevel" = JSVal.undef → m.batteryLevel = JSNum.finite 0) ∧
        (getProp fields "movements" = JSVal.undef → m.movements = JSNum.finite 0) ∧
        (getProp fields "temperature" = JSVal.undef → m.temperature = JSNum.finite 0) ∧
        (m.txPower = none ↔ getProp fields "txPower" = JSVal.undef) ∧
        (m.rssiFromBLE = none ↔ getProp fields "rssiFromBLE" = JSVal.undef) ∧
        (m.isConnectable = none ↔ getProp fields "isConnectable" = JSVal.undef) ∧
        (getProp fields "txPower" ≠ JSVal.undef →
          m.txPower = some (asNumber prim (getProp fields "txPower") (JSNum.finite 0))) ∧
        (getProp fields "rssiFromBLE" ≠ JSVal.undef →
          m.rssiFromBLE = some (asNumber prim (getProp fields "rssiFromBLE") (JSNum.finite 0))) ∧
        (getProp fields "isConnectable" ≠ JSVal.undef →
          m.isConnectable = some (toBool (getProp fields "isConnectable")))) := by
  constructor
  · intro h
    cases value <;> first | exact absurd rfl (h _) | rfl
  · rintro fields rfl
    refine ⟨_, rfl, rfl, rfl, rfl, ?_, ?_, ?_, ?_, ?_, ?_, ?_, ?_, ?_⟩
    · intro h
      simp [h, asNumber]
    · intro h
      simp [h, asNumber]
    · intro h
      simp [h, asNumber]
    · cases hg : getProp fields "txPower" <;> simp [hg]
    · cases hg : getProp fields "rssiFromBLE" <;> simp [hg]
    · cases hg : getProp fields "isConnectable" <;> simp [hg]
    · intro h
      cases hg : getProp fields "txPower"
      case undef => exact absurd hg h
      all_goals simp [hg]
    · intro h
      cases hg : getProp fields "rssiFromBLE"
      case undef => exact absurd hg h
      all_goals simp [hg]
    · intro h
      cases hg : getProp fields "isConnectable"
      case undef => exact absurd hg h
      all_goals simp [hg]

theorem parseMetadata_shape_witness :
    parseMetadata prim0 JSVal.null = none ∧
    (parseMetadata prim0 (JSVal.obj [("batteryLevel", JSVal.num (JSNum.finite 50))])).map
      BeaconMetadata.batteryLevel = some (JSNum.finite 50) := by
  constructor
  · exact (parseMetadata_shape prim0 JSVal.null).1 (fun fields h => by cases h)
  · obtain ⟨m, hm, hb, -⟩ :=
      (parseMetadata_shape prim0 _).2 [("batteryLevel", JSVal.num (JSNum.finite 50))] rfl
    rw [hm, Option.map_some', hb]
    rfl

/-- C10 counterexample: with the `type` key absent, an explicitly
undefined `success` value has its key present yet the parsed event leaves
`success` absent - refuting "absent exactly when the source key is
absent". -/
theorem parseSyncLifecycleEvent_key_undef_cex :
    ([("success", JSVal.undef)].lookup "success" = some JSVal.undef) ∧
    (parseSyncLifecycleEvent prim0 (JSVal.obj [("success", JSVal.undef)])).success = none ∧
    (parseSyncLifecycleEvent prim0 (JSVal.obj [("success", JSVal.undef)])).type = "undefined" :=
  ⟨rfl, rfl, rfl⟩

/-- C10 (amended): whenever the `type` property of the normalized payload
reads as undefined (missing key, or a non-object payload normalizing to
the empty map), the parsed event has the literal string type
`"undefined"` - outside the declared started/completed set - while
`beaconCount` defaults to 0 and `success`/`error` are absent exactly when
the corresponding property reads as undefined. -/
theorem parseSyncLifecycleEvent_type_undef (prim : JSPrim) (event : JSVal)
    (h : getProp (asMap event) "type" = JSVal.undef) :
    (parseSyncLifecycleEvent prim event).type = "undefined" ∧
    (parseSyncLifecycleEvent prim event).type ≠ "started" ∧
    (parseSyncLifecycleEvent prim event).type ≠ "completed" ∧
    (getProp (asMap event) "beaconCount" = JSVal.undef →
      (parseSyncLifecycleEvent prim event).beaconCount = JSNum.finite 0) ∧
    ((parseSyncLifecycleEvent prim event).success = none ↔
      getProp (asMap event) "success" = JSVal.undef) ∧
    ((parseSyncLifecycleEvent prim event).error = none ↔
      getProp (asMap event) "error" = JSVal.undef) ∧
    (getProp (asMap event) "success" ≠ JSVal.undef →
      (parseSyncLifecycleEvent prim event).success = some (toBool (getProp (asMap event) "success"))) ∧
    (getProp (asMap event) "error" ≠ JSVal.undef →
      (parseSyncLifecycleEvent prim event).error = some (jsToString prim (getProp (asMap event) "error"))) := by
  refine ⟨?_, ?_, ?_, ?_, ?_, ?_, ?_, ?_⟩
  · simp [parseSyncLifecycleEvent, h, jsToString]
  · simp [parseSyncLifecycleEvent, h, jsToString]
  · simp [parseSyncLifecycleEvent, h, jsToString]
  · intro hb
    simp [parseSyncLifecycleEvent, hb, asNumber]
  · cases hs : getProp (asMap event) "success" <;> simp [parseSyncLifecycleEvent, hs]
  · cases he : getProp (asMap event) "error" <;> simp [parseSyncLifecycleEvent, he]
  · intro hne
    cases hs : getProp (asMap event) "success"
    case undef => exact absurd hs hne
    all_goals simp [parseSyncLifecycleEvent, hs]
  · intro hne
    cases he : getProp (asMap event) "error"
    case undef => exact absurd he hne
    all_goals simp [parseSyncLifecycleEvent, he]

theorem parseSyncLifecycleEvent_type_undef_witness :
    getProp (asMap JSVal.null) "type" = JSVal.undef ∧
    (parseSyncLifecycleEvent prim0 JSVal.null).type = "undefined" ∧
    (parseSyncLifecycleEvent prim0 JSVal.null).beaconCount = JSNum.finite 0 ∧
    (parseSyncLifecycleEvent prim0 JSVal.null).success = none := by
  have h := parseSyncLifecycleEvent_type_undef prim0 JSVal.null rfl
  exact ⟨rfl, h.1, h.2.2.2.1 rfl, h.2.2.2.2.1.mpr rfl⟩

/-- C8: `configure` rejects synchronously - never reaching the native
bridge, encoded as the `Except.error` result carrying no native
invocation - with the business-token message, exactly when the token is
missing, empty, or whitespace-only; otherwise the trimmed token together
with the defaulted options forms the single native invocation. -/
theorem configure_validation (config : SdkConfig) :
    (config.businessToken = none →
      configure config = Except.error "Business token is required") ∧
    (∀ s, config.businessToken = some s → jsTrim s = "" →
      configure config = Except.error "Business token is required") ∧
    (∀ s, config.businessToken = some s → jsTrim s ≠ "" →
      configure config = Except.ok
        { businessToken := jsTrim s
          foregroundScanInterval := config.foregroundScanInterval.getD 15
          backgroundScanInterval := config.backgroundScanInterval.getD 30
          maxQueuedPayloads := config.maxQueuedPayloads.getD 100
          enableBluetoothScanning := config.enableBluetoothScanning.getD false
          enablePeriodicScanning := config.enablePeriodicScanning.getD true }) := by
  refine ⟨?_, ?_, ?_⟩
  · intro h
    simp [configure, h]
  · intro s hs ht
    simp [configure, hs, ht]
  · intro s hs ht
    have hlen : ¬ (jsTrim s).length = 0 := fun h0 => ht (string_length_eq_zero.mp h0)
    have hne : ¬ s = "" := fun h0 => ht (by rw [h0]; rfl)
    simp [configure, hs, hne, hlen]

theorem configure_validation_witness :
    configure { businessToken := some "   ", foregroundScanInterval := none
                backgroundScanInterval := none, maxQueuedPayloads := none
                enableBluetoothScanning := none, enablePeriodicScanning := none }
      = Except.error "Business token is required" ∧
    configure { businessToken := some "\x0B\x0C\u00A0", foregroundScanInterval := none
                backgroundScanInterval := none, maxQueuedPayloads := none
                enableBluetoothScanning := none, enablePeriodicScanning := none }
      = Except.error "Business token is required" ∧
    configure { businessToken := some " tok ", foregroundScanInterval := none
                backgroundScanInterval := none, maxQueuedPayloads := none
                enableBluetoothScanning := none, enablePeriodicScanning := none }
      = Except.ok { businessToken := "tok", foregroundScanInterval := 15
                    backgroundScanInterval := 30, maxQueuedPayloads := 100
                    enableBluetoothScanning := false, enablePeriodicScanning := true } ∧
    configure { businessToken := some " tok\u00A0", foregroundScanInterval := none
                backgroundScanInterval := none, maxQueuedPayloads := none
                enableBluetoothScanning := none, enablePeriodicScanning := none }
      = Except.ok { businessToken := "tok", foregroundScanInterval := 15
                    backgroundScanInterval := 30, maxQueuedPayloads := 100
                    enableBluetoothScanning := false, enablePeriodicScanning := true } := by
  refine ⟨?_, ?_, ?_, ?_⟩
  · exact (configure_validation _).2.1 "   " rfl rfl
  · exact (configure_validation _).2.1 "\x0B\x0C\u00A0" rfl rfl
  · rw [(configure_validation _).2.2 " tok " rfl (by decide)]
    rfl
  · rw [(configure_validation _).2.2 " tok\u00A0" rfl (by decide)]
    rfl

/-! ## Claims about the permission orchestrator -/

/-- An Android OS model whose fine-location check and request both
reject. -/
def osBoom : OS :=
  { isAndroid := true
    version := 33
    check := fun p =>
      match p with
      | Perm.fineLocation => Except.error "boom"
      | _ => Except.ok true
    request := fun p =>
      match p with
      | Perm.fineLocation => Except.error "boom"
      | _ => Except.ok ReqRes.granted
    openSettingsResult := Except.ok () }

/-- C1 counterexample: with the underlying fine-location check rejecting,
`checkPermissions` rejects with that very exception instead of returning
a status with the field degraded to false and the other fields computed:
the run aborts after the single failing check. -/
theorem checkPermissions_error_cex :
    checkPermissions osBoom = (Except.error "boom", [OsCall.check Perm.fineLocation]) := rfl

/-- C1 (amended): the permission operations contain no exception handler:
when an underlying OS permission call rejects, the operation rejects with
the same error - only a call that resolves to a non-granted value
degrades to false. -/
theorem permissions_error_propagation (os : OS) (e : String)
    (hA : os.isAndroid = true) (h29 : 29 ≤ sdkInt os)
    (hc : os.check Perm.fineLocation = Except.error e)
    (hrq : os.request Perm.fineLocation = Except.error e) :
    (checkPermissions os).fst = Except.error e ∧
    (requestForegroundPermissions os).fst = Except.error e ∧
    (requestBackgroundLocation os).fst = Except.error e ∧
    (ensurePermissions os true).fst = Except.error e := by
  have hcond : ¬ ((!os.isAndroid) = true) := by simp [hA]
  have herr1 : (has os (some Perm.fineLocation)).fst = Except.error e := by
    rw [has_fst, hc]
  have hchk : (checkPermissions os).fst = Except.error e := by
    rw [checkPermissions, if_neg hcond]
    simp only [M.bind_eq]
    rw [M.bind_of_err herr1]
  have herr2 : (req os Perm.fineLocation).fst = Except.error e := by
    rw [req_fst, hrq]
    rfl
  have hrfp : (requestForegroundPermissions os).fst = Except.error e := by
    rw [requestForegroundPermissions, if_neg hcond]
    simp only [M.bind_eq]
    rw [M.bind_of_err herr2]
  have hnl : ¬ (sdkInt os < 29) := not_lt.mpr h29
  have hcond2 : ¬ ((!os.isAndroid || decide (sdkInt os < 29)) = true) := by
    simp [hA, hnl]
  have hrbl : (requestBackgroundLocation os).fst = Except.error e := by
    rw [requestBackgroundLocation, if_neg hcond2]
    simp only [M.bind_eq]
    rw [M.bind_of_err hchk]
  refine ⟨hchk, hrfp, hrbl, ?_⟩
  rw [ensurePermissions]
  simp only [M.bind_eq]
  rw [M.bind_of_err hrfp]

theorem permissions_error_propagation_witness :
    (checkPermissions osBoom).fst = Except.error "boom" ∧
    (requestForegroundPermissions osBoom).fst = Except.error "boom" ∧
    (requestBackgroundLocation osBoom).fst = Except.error "boom" ∧
    (ensurePermissions osBoom true).fst = Except.error "boom" :=
  permissions_error_propagation osBoom "boom" rfl (by decide) rfl rfl

/-- C2: on Android, a successful `requestForegroundPermissions` run
returns, in every field, the OR-merge of the freshly checked status with
the individual request outcomes; in particular no field regresses from
true in the checked snapshot to false in the returned status. -/
theorem requestForegroundPermissions_merge (os : OS) (r c : PermissionResult)
    (hA : os.isAndroid = true)
    (hr : (requestForegroundPermissions os).fst = Except.ok r)
    (hc : (checkPermissions os).fst = Except.ok c) :
    (r.fineLocation = (c.fineLocation || grantedB os Perm.fineLocation
      || (!grantedB os Perm.fineLocation && grantedB os Perm.coarseLocation))) ∧
    (r.btScan = (c.btScan || (if 31 ≤ sdkInt os then grantedB os Perm.btScan else true))) ∧
    (r.btConnect = (c.btConnect || (if 31 ≤ sdkInt os then grantedB os Perm.btConnect else true))) ∧
    (r.notifications = (c.notifications
      || (if 33 ≤ sdkInt os then grantedB os Perm.postNotifications else true))) ∧
    (r.backgroundLocation = c.backgroundLocation) ∧
    (c.fineLocation = true → r.fineLocation = true) ∧
    (c.btScan = true → r.btScan = true) ∧
    (c.btConnect = true → r.btConnect = true) ∧
    (c.notifications = true → r.notifications = true) ∧
    (c.backgroundLocation = true → r.backgroundLocation = true) := by
  obtain ⟨c0, hc0, hrec, -⟩ := rfp_char os r hA hr
  have hcc : c0 = c := Except.ok.inj (hc0.symm.trans hc)
  subst hcc
  subst hrec
  refine ⟨rfl, rfl, rfl, rfl, rfl, ?_, ?_, ?_, ?_, ?_⟩ <;> intro h <;> simp [h]

/-- An Android 13 model where both location checks report false and all
requests resolve granted. -/
def osC2 : OS :=
  { isAndroid := true
    version := 33
    check := fun p =>
      match p with
      | Perm.fineLocation => Except.ok false
      | Perm.coarseLocation => Except.ok false
      | _ => Except.ok true
    request := fun _ => Except.ok ReqRes.granted
    openSettingsResult := Except.ok () }

theorem requestForegroundPermissions_merge_witness :
    (requestForegroundPermissions osC2).fst = Except.ok
      { fineLocation := true, btScan := true, btConnect := true
        notifications := true, backgroundLocation := true } ∧
    (checkPermissions osC2).fst = Except.ok
      { fineLocation := false, btScan := true, btConnect := true
        notifications := true, backgroundLocation := true } ∧
    ({ fineLocation := true, btScan := true, btConnect := true
       notifications := true, backgroundLocation := true } : PermissionResult).btScan = true := by
  have h := requestForegroundPermissions_merge osC2
    { fineLocation := true, btScan := true, btConnect := true
      notifications := true, backgroundLocation := true }
    { fineLocation := false, btScan := true, btConnect := true
      notifications := true, backgroundLocation := true } rfl rfl rfl
  exact ⟨rfl, rfl, h.2.2.2.2.2.2.1 rfl⟩

/-- An Android 10 model where precise location is denied but approximate
location is granted, and every request resolves granted. -/
def osC3 : OS :=
  { isAndroid := true
    version := 29
    check := fun p =>
      match p with
      | Perm.fineLocation => Except.ok false
      | _ => Except.ok true
    request := fun _ => Except.ok ReqRes.granted
    openSettingsResult := Except.ok () }

/-- C3 counterexample: precise location is absent and the version is
below the independent-background threshold, yet because approximate
location is granted the merged fineLocation field is true, so the code
shows the background dialog and returns true - while the claim demands an
immediate false with no dialog. -/
theorem requestBackgroundLocation_gate_cex :
    osC3.check Perm.fineLocation = Except.ok false ∧
    sdkInt osC3 < 31 ∧
    requestBackgroundLocation osC3 =
      (Except.ok true,
        [OsCall.check Perm.fineLocation, OsCall.check Perm.coarseLocation,
         OsCall.check Perm.backgroundLocation, OsCall.request Perm.backgroundLocation]) :=
  ⟨rfl, by decide, rfl⟩

/-- C3 (amended): the gate is on the merged precise-or-approximate
location field of the fresh check: when that merged field is false and
the OS version is below 31 (and at least 29, on Android), the call
returns false immediately, its trace being exactly the silent checks -
no dialog and no settings deep-link. -/
theorem requestBackgroundLocation_gate (os : OS) (c : PermissionResult)
    (hA : os.isAndroid = true) (h29 : 29 ≤ sdkInt os) (h31 : sdkInt os < 31)
    (hc : (checkPermissions os).fst = Except.ok c) (hfl : c.fineLocation = false) :
    (requestBackgroundLocation os).fst = Except.ok false ∧
    (requestBackgroundLocation os).snd = (checkPermissions os).snd ∧
    ∀ e ∈ (requestBackgroundLocation os).snd, ∃ p, e = OsCall.check p := by
  have hnl : ¬ (sdkInt os < 29) := not_lt.mpr h29
  have hcond : ¬ ((!os.isAndroid || decide (sdkInt os < 29)) = true) := by
    simp [hA, hnl]
  have hgate : (!c.fineLocation && decide (sdkInt os < 31)) = true := by
    simp [hfl, h31]
  have hfull : requestBackgroundLocation os = (Except.ok false, (checkPermissions os).snd) := by
    rw [requestBackgroundLocation, if_neg hcond]
    simp only [M.bind_eq]
    rw [M.bind_of_ok hc, if_pos hgate]
    simp [M.pure_eq]
  refine ⟨by rw [hfull], by rw [hfull], ?_⟩
  intro e he
  rw [hfull] at he
  exact checkPermissions_snd_checks os he

/-- An Android 10 model where both location checks report false. -/
def osC3w : OS :=
  { isAndroid := true
    version := 29
    check := fun p =>
      match p with
      | Perm.fineLocation => Except.ok false
      | Perm.coarseLocation => Except.ok false
      | _ => Except.ok true
    request := fun _ => Except.ok ReqRes.granted
    openSettingsResult := Except.ok () }

theorem requestBackgroundLocation_gate_witness :
    (checkPermissions osC3w).fst = Except.ok
      { fineLocation := false, btScan := true, btConnect := true
        notifications := true, backgroundLocation := true } ∧
    (requestBackgroundLocation osC3w).fst = Except.ok false ∧
    (requestBackgroundLocation osC3w).snd = (checkPermissions osC3w).snd := by
  have h := requestBackgroundLocation_gate osC3w
    { fineLocation := false, btScan := true, btConnect := true
      notifications := true, backgroundLocation := true }
    rfl (by decide) (by decide) rfl rfl
  exact ⟨rfl, h.1, h.2.1⟩

/-- C4: on the non-Android platform every operation is a pass-through:
`checkPermissions` and `requestForegroundPermissions` return the all-true
status and `requestBackgroundLocation` returns true, all with an empty
trace - no OS permission primitive is ever invoked, whatever the
underlying permission state. -/
theorem permissions_secondary_passthrough (os : OS) (h : os.isAndroid = false) :
    checkPermissions os =
      (Except.ok { fineLocation := true, btScan := true, btConnect := true
                   notifications := true, backgroundLocation := true }, []) ∧
    requestForegroundPermissions os =
      (Except.ok { fineLocation := true, btScan := true, btConnect := true
                   notifications := true, backgroundLocation := true }, []) ∧
    requestBackgroundLocation os = (Except.ok true, []) := by
  have hcond : (!os.isAndroid) = true := by simp [h]
  have hc : checkPermissions os =
      (Except.ok { fineLocation := true, btScan := true, btConnect := true
                   notifications := true, backgroundLocation := true }, []) := by
    rw [checkPermissions, if_pos hcond]
    rfl
  have hcond2 : (!os.isAndroid || decide (sdkInt os < 29)) = true := by simp [h]
  refine ⟨hc, ?_, ?_⟩
  · rw [requestForegroundPermissions, if_pos hcond]
    exact hc
  · rw [requestBackgroundLocation, if_pos hcond2]
    rfl

/-- A non-Android OS model in which every permission check reports false
and every request resolves denied. -/
def osIos : OS :=
  { isAndroid := false
    version := 0
    check := fun _ => Except.ok false
    request := fun _ => Except.ok ReqRes.denied
    openSettingsResult := Except.ok () }

theorem permissions_secondary_passthrough_witness :
    checkPermissions osIos =
      (Except.ok { fineLocation := true, btScan := true, btConnect := true
                   notifications := true, backgroundLocation := true }, []) ∧
    requestForegroundPermissions osIos =
      (Except.ok { fineLocation := true, btScan := true, btConnect := true
                   notifications := true, backgroundLocation := true }, []) ∧
    requestBackgroundLocation osIos = (Except.ok true, []) :=
  permissions_secondary_passthrough osIos rfl

/-- C9: within one successful Android foreground-permission request, the
dialog calls of the trace are exactly the fixed sequential prompt order
of the spec - precise location, approximate location only if precise was
denied, Bluetooth scan, Bluetooth connect, notifications - with each
version-gated prompt skipped and its field treated as granted below the
version introducing it. -/
theorem requestForegroundPermissions_prompt_order (os : OS) (r : PermissionResult)
    (hA : os.isAndroid = true)
    (hr : (requestForegroundPermissions os).fst = Except.ok r) :
    (requestForegroundPermissions os).snd.filter isRequestCall = specPromptOrder os ∧
    (¬ 31 ≤ sdkInt os → r.btScan = true ∧ r.btConnect = true) ∧
    (¬ 33 ≤ sdkInt os → r.notifications = true) := by
  obtain ⟨c, hc, hrec, hsnd⟩ := rfp_char os r hA hr
  subst hrec
  refine ⟨?_, ?_, ?_⟩
  · rw [hsnd, List.filter_append, checkPermissions_snd_no_request, List.append_nil]
    by_cases h31 : 31 ≤ sdkInt os <;> by_cases h33 : 33 ≤ sdkInt os <;>
      cases hgf : grantedB os Perm.fineLocation <;>
        simp [specPromptOrder, h31, h33, hgf, isRequestCall]
  · intro h31
    constructor <;> simp [h31]
  · intro h33
    simp [h33]

/-- An Android 11 model where every check reports false, the precise
location request is denied and the approximate one granted. -/
def osC9 : OS :=
  { isAndroid := true
    version := 30
    check := fun _ => Except.ok false
    request := fun p =>
      match p with
      | Perm.fineLocation => Except.ok ReqRes.denied
      | _ => Except.ok ReqRes.granted
    openSettingsResult := Except.ok () }

theorem requestForegroundPermissions_prompt_order_witness :
    (requestForegroundPermissions osC9).fst = Except.ok
      { fineLocation := true, btScan := true, btConnect := true
        notifications := true, backgroundLocation := false } ∧
    (requestForegroundPermissions osC9).snd.filter isRequestCall =
      [OsCall.request Perm.fineLocation, OsCall.request Perm.coarseLocation] ∧
    specPromptOrder osC9 =
      [OsCall.request Perm.fineLocation, OsCall.request Perm.coarseLocation] := by
  have h := requestForegroundPermissions_prompt_order osC9
    { fineLocation := true, btScan := true, btConnect := true
      notifications := true, backgroundLocation := false } rfl rfl
  refine ⟨rfl, ?_, rfl⟩
  rw [h.1]
  rfl

end Bearound
